import Mathlib

/-!
Verification development for the chiffremento crypto core
(`src/utils/crypto.ts`, class `CryptoUtils`, and
`src/utils/fileEncryption.ts`, class `FileEncryptionService`).

Modelling conventions:
* `Uint8Array` buffers are `List Nat` whose elements are byte values;
  a store into a `Uint8Array` truncates with `% 256`, exactly as JS does.
* All 32-bit JavaScript arithmetic (`Uint32Array` cells, `|`, `^`, `<<`,
  `>>>`, `& 0xffffffff`) is modelled on `Nat` modulo `2^32`.  JS bitwise
  operators first convert their operands with `ToInt32`/`ToUint32`, both of
  which agree with reduction modulo `2^32`, and every intermediate JS sum in
  the translated code is below `2^53`, so it is computed exactly as a double;
  hence `Nat`-mod-`2^32` arithmetic is value-faithful.
* WebCrypto primitives (PBKDF2, SHA-256/512, AES-GCM) and `JSON.parse` are
  external platform primitives; they are modelled abstractly (as function
  parameters or a structure of functions with the structural laws the code
  relies on), never reimplemented from the spec.
-/

namespace Chiffremento

/-- Reduction modulo `2^32`: the result of storing into a `Uint32Array` cell
or of `& 0xffffffff` in JS. -/
def u32 (x : Nat) : Nat := x % 4294967296

/-- 32-bit left rotation, the JS idiom `((x << k) | (x >>> (32 - k))) & 0xffffffff`
for an operand already reduced modulo `2^32`. -/
def rotl (x k : Nat) : Nat := u32 ((u32 x) <<< k) ||| ((u32 x) >>> (32 - k))

/-- Big-endian 32-bit read of the first four bytes of a buffer:
`new DataView(buf).getUint32(0, false)` and the manual
`(b[0] << 24) | (b[1] << 16) | (b[2] << 8) | b[3]` conversions. -/
def beU32 (l : List Nat) : Nat :=
  ((l.getD 0 0) <<< 24) ||| ((l.getD 1 0) <<< 16) ||| ((l.getD 2 0) <<< 8) ||| l.getD 3 0

/-- The four bytes of `new Uint8Array(new Uint32Array([n]).buffer)`:
little-endian byte order (the platform byte order of every JS engine the
app targets). -/
def leU32Bytes (n : Nat) : List Nat :=
  [n % 256, (n >>> 8) % 256, (n >>> 16) % 256, (n >>> 24) % 256]

/-- Big-endian bytes of a 32-bit value (`DataView.setUint32(_, n, false)`). -/
def beU32Bytes (n : Nat) : List Nat :=
  [(n >>> 24) % 256, (n >>> 16) % 256, (n >>> 8) % 256, n % 256]

/-- Little-endian 32-bit read: `getUint32(0, true)`. -/
def leU32 (l : List Nat) : Nat :=
  (l.getD 0 0) ||| ((l.getD 1 0) <<< 8) ||| ((l.getD 2 0) <<< 16) ||| ((l.getD 3 0) <<< 24)

/-- `TypedArray.prototype.slice(a, b)` (with the clamping JS performs). -/
def jsSlice (l : List Nat) (a b : Nat) : List Nat := (l.drop a).take (b - a)

/-- `target.set(src, k)` on a `Uint8Array`.  JS throws a `RangeError` when the
source does not fit; no modelled code path performs an overflowing `set`, and
in that (unreached) case we keep the buffer unchanged. -/
def writeAt (l : List Nat) (k : Nat) (src : List Nat) : List Nat :=
  if k + src.length ≤ l.length then l.take k ++ src ++ l.drop (k + src.length) else l

/-- `a[j] ^= b[j]` for `j < 16` on two 16-byte blocks. -/
def xorBytes (a b : List Nat) : List Nat := a.zipWith (· ^^^ ·) b

/-- Big-endian word from four consecutive bytes, as in
`(k[4i] << 24) | (k[4i+1] << 16) | (k[4i+2] << 8) | k[4i+3]`. -/
def bytesToWordBE (l : List Nat) (i : Nat) : Nat :=
  ((l.getD (4 * i) 0) <<< 24) ||| ((l.getD (4 * i + 1) 0) <<< 16) |||
    ((l.getD (4 * i + 2) 0) <<< 8) ||| l.getD (4 * i + 3) 0

/-- The four big-endian bytes of a 32-bit word, as in the
`(words[i] >> 24) & 0xff`… reconversions. -/
def wordToBytesBE (w : Nat) : List Nat :=
  [(w >>> 24) % 256, (w >>> 16) % 256, (w >>> 8) % 256, w % 256]

/-- Four-word cipher state (`Uint32Array(4)`). -/
structure W4 where
  a : Nat
  b : Nat
  c : Nat
  d : Nat
deriving DecidableEq, Repr

/-- Load a 16-byte block into four big-endian 32-bit words. -/
def blockToWords (block : List Nat) : W4 :=
  ⟨bytesToWordBE block 0, bytesToWordBE block 1, bytesToWordBE block 2, bytesToWordBE block 3⟩

/-- Store four 32-bit words back into 16 bytes. -/
def wordsToBlock (w : W4) : List Nat :=
  wordToBytesBE w.a ++ wordToBytesBE w.b ++ wordToBytesBE w.c ++ wordToBytesBE w.d

/-! ## Twofish (`CryptoUtils.twofishCipher` and helpers) -/

/-- The 16-entry table used by both `twofishH` and `twofishF`. -/
def tfSbox : List Nat :=
  [0x01, 0x23, 0x45, 0x67, 0x89, 0xab, 0xcd, 0xef, 0xfe, 0xdc, 0xba, 0x98, 0x76, 0x54, 0x32, 0x10]

/-- One step of the `twofishH` inner loop:
`y = sbox[y & 0xf] | (sbox[(y >> 4) & 0xf] << 4)`. -/
def twofishHStep (y : Nat) : Nat :=
  (tfSbox.getD (y % 16) 0) ||| ((tfSbox.getD ((y >>> 4) % 16) 0) <<< 4)

/-- `CryptoUtils.twofishH`. -/
def twofishH (x : Nat) (keyWords : List Nat) : Nat :=
  (twofishHStep (twofishHStep (twofishHStep (twofishHStep x)))) ^^^ keyWords.getD (x % 8) 0

/-- `CryptoUtils.generateTwofishSubkeys`: 40 round subkeys. -/
def generateTwofishSubkeys (key : List Nat) : List Nat :=
  let keyWords := (List.range 8).map (fun i => bytesToWordBE key i)
  (List.range 20).flatMap (fun i =>
    let A := twofishH (2 * i) keyWords
    let B := twofishH (2 * i + 1) keyWords
    let rotB := rotl B 8
    [u32 (A + rotB), rotl (u32 (A + 2 * rotB)) 9])

/-- `CryptoUtils.twofishF` (the `_subkeys` argument of the source is unused). -/
def twofishF (x : Nat) : Nat :=
  ((tfSbox.getD (((x >>> 24) % 256) % 16) 0) <<< 0) ^^^
    ((tfSbox.getD (((x >>> 16) % 256) % 16) 0) <<< 8) ^^^
    ((tfSbox.getD (((x >>> 8) % 256) % 16) 0) <<< 16) ^^^
    ((tfSbox.getD ((x % 256) % 16) 0) <<< 24)

/-- One round of `twofishBlockEncrypt`, including the final word swap. -/
def twofishEncRound (subkeys : List Nat) (w : W4) (round : Nat) : W4 :=
  let t0 := twofishF w.a
  let t1 := twofishF (rotl w.b 8)
  let c2 := rotl (w.c ^^^ u32 (t0 + t1 + subkeys.getD (2 * round + 8) 0)) 31
  let c3 := u32 (rotl w.d 1 ^^^ u32 (t0 + 2 * t1 + subkeys.getD (2 * round + 9) 0))
  ⟨c2, c3, w.a, w.b⟩

/-- `CryptoUtils.twofishBlockEncrypt`. -/
def twofishBlockEncrypt (block : List Nat) (subkeys : List Nat) : List Nat :=
  wordsToBlock ((List.range 16).foldl (twofishEncRound subkeys) (blockToWords block))

/-- One round of `twofishBlockDecrypt`: the swap is undone first, then the
two mixed words are inverted. -/
def twofishDecRound (subkeys : List Nat) (w : W4) (round : Nat) : W4 :=
  let a := w.c
  let b := w.d
  let c := w.a
  let d := w.b
  let t0 := twofishF a
  let t1 := twofishF (rotl b 8)
  let d' := rotl (d ^^^ u32 (t0 + 2 * t1 + subkeys.getD (2 * round + 9) 0)) 31
  let c' := u32 (rotl c 1 ^^^ u32 (t0 + t1 + subkeys.getD (2 * round + 8) 0))
  ⟨a, b, c', d'⟩

/-- `CryptoUtils.twofishBlockDecrypt` (rounds 15 down to 0). -/
def twofishBlockDecrypt (block : List Nat) (subkeys : List Nat) : List Nat :=
  wordsToBlock ((List.range 16).reverse.foldl (twofishDecRound subkeys) (blockToWords block))

/-! ## Serpent (`CryptoUtils.serpentCipher` and helpers) -/

/-- `CryptoUtils.serpentSBox` tables. -/
def serpentSboxes : List (List Nat) :=
  [[3, 8, 15, 1, 10, 6, 5, 11, 14, 13, 4, 2, 7, 0, 9, 12],
   [15, 12, 2, 7, 9, 0, 5, 10, 1, 11, 14, 8, 6, 13, 3, 4],
   [8, 6, 7, 9, 3, 12, 10, 15, 13, 1, 14, 4, 0, 11, 5, 2],
   [0, 15, 11, 8, 12, 9, 6, 3, 13, 1, 2, 4, 10, 7, 5, 14],
   [1, 15, 8, 3, 12, 0, 11, 6, 2, 5, 4, 10, 9, 14, 7, 13],
   [15, 5, 2, 11, 4, 10, 9, 12, 0, 3, 14, 8, 13, 6, 7, 1],
   [7, 2, 12, 5, 8, 4, 6, 11, 14, 9, 1, 15, 13, 3, 10, 0],
   [1, 13, 15, 0, 14, 8, 2, 11, 7, 4, 12, 10, 9, 3, 5, 6]]

/-- `CryptoUtils.serpentInverseSBox` tables. -/
def serpentInvSboxes : List (List Nat) :=
  [[13, 3, 11, 0, 10, 6, 5, 12, 1, 14, 4, 7, 15, 9, 8, 2],
   [5, 8, 2, 14, 15, 6, 12, 3, 11, 4, 7, 9, 1, 13, 10, 0],
   [12, 9, 15, 4, 11, 14, 1, 2, 0, 3, 6, 13, 5, 8, 10, 7],
   [0, 9, 10, 7, 11, 14, 6, 13, 3, 5, 12, 2, 4, 8, 15, 1],
   [5, 0, 8, 3, 10, 9, 7, 14, 2, 12, 11, 6, 4, 15, 13, 1],
   [8, 15, 2, 9, 4, 1, 13, 14, 11, 6, 5, 3, 7, 12, 10, 0],
   [15, 10, 1, 13, 5, 3, 6, 0, 4, 9, 14, 7, 2, 12, 8, 11],
   [3, 0, 6, 13, 9, 14, 15, 8, 5, 12, 11, 7, 10, 1, 4, 2]]

/-- Apply a 4-bit S-box to each nibble of a 32-bit word (the inner `j` loop of
`serpentSBox` / `serpentInverseSBox`). -/
def applySboxWord (sbox : List Nat) (w : Nat) : Nat :=
  (List.range 8).foldl (fun acc k => acc ||| ((sbox.getD ((w >>> (4 * k)) % 16) 0) <<< (4 * k))) 0

/-- `serpentSBox` applied to all four state words. -/
def serpentSBox (w : W4) (sboxIndex : Nat) : W4 :=
  let s := serpentSboxes.getD sboxIndex []
  ⟨applySboxWord s w.a, applySboxWord s w.b, applySboxWord s w.c, applySboxWord s w.d⟩

/-- `serpentInverseSBox` applied to all four state words. -/
def serpentInvSBox (w : W4) (sboxIndex : Nat) : W4 :=
  let s := serpentInvSboxes.getD sboxIndex []
  ⟨applySboxWord s w.a, applySboxWord s w.b, applySboxWord s w.c, applySboxWord s w.d⟩

/-- `CryptoUtils.generateSerpentSubkeys`: 132 words. -/
def generateSerpentSubkeys (key : List Nat) : List Nat :=
  let keyWords := (List.range 8).map (fun i => bytesToWordBE key i)
  (List.range' 8 124).foldl
    (fun sk i =>
      let temp := (sk.getD (i - 8) 0) ^^^ (sk.getD (i - 5) 0) ^^^ (sk.getD (i - 3) 0) ^^^
        (sk.getD (i - 1) 0) ^^^ 0x9e3779b9 ^^^ (i - 8)
      sk ++ [rotl temp 11])
    keyWords

/-- `CryptoUtils.serpentLinearTransform`. -/
def serpentLT (w : W4) : W4 :=
  let a := rotl w.a 13
  let c := rotl w.c 3
  let b := u32 (w.b ^^^ a ^^^ c)
  let d := u32 (w.d ^^^ c ^^^ u32 (a <<< 3))
  let b := rotl b 1
  let d := rotl d 7
  let a := u32 (a ^^^ b ^^^ d)
  let c := u32 (c ^^^ d ^^^ u32 (b <<< 7))
  let a := rotl a 5
  let c := rotl c 22
  ⟨a, b, c, d⟩

/-- `CryptoUtils.serpentInverseLinearTransform`. -/
def serpentInvLT (w : W4) : W4 :=
  let c := rotl w.c 10
  let a := rotl w.a 27
  let c := u32 (c ^^^ w.d ^^^ u32 (w.b <<< 7))
  let a := u32 (a ^^^ w.b ^^^ w.d)
  let d := rotl w.d 25
  let b := rotl w.b 31
  let d := u32 (d ^^^ c ^^^ u32 (a <<< 3))
  let b := u32 (b ^^^ a ^^^ c)
  let c := rotl c 29
  let a := rotl a 19
  ⟨a, b, c, d⟩

/-- XOR a round subkey block into the state (`words[i] ^= subkeys[base + i]`). -/
def serpentXorKey (subkeys : List Nat) (base : Nat) (w : W4) : W4 :=
  ⟨w.a ^^^ subkeys.getD base 0, w.b ^^^ subkeys.getD (base + 1) 0,
   w.c ^^^ subkeys.getD (base + 2) 0, w.d ^^^ subkeys.getD (base + 3) 0⟩

/-- One round of `serpentBlockEncrypt`: key mixing, S-box, and the linear
transform on every round except the last. -/
def serpentEncRound (subkeys : List Nat) (w : W4) (round : Nat) : W4 :=
  let w := serpentXorKey subkeys (round * 4) w
  let w := serpentSBox w (round % 8)
  if round < 31 then serpentLT w else w

/-- `CryptoUtils.serpentBlockEncrypt`. -/
def serpentBlockEncrypt (block : List Nat) (subkeys : List Nat) : List Nat :=
  let w := (List.range 32).foldl (serpentEncRound subkeys) (blockToWords block)
  wordsToBlock (serpentXorKey subkeys 128 w)

/-- One round of `serpentBlockDecrypt`: as written in the source, the inverse
linear transform runs for every round index strictly greater than 0 (not for
every round except the last, as the inverse of the encryption order would
require). -/
def serpentDecRound (subkeys : List Nat) (w : W4) (round : Nat) : W4 :=
  let w := if round > 0 then serpentInvLT w else w
  let w := serpentInvSBox w (round % 8)
  serpentXorKey subkeys (round * 4) w

/-- `CryptoUtils.serpentBlockDecrypt` (rounds 31 down to 0). -/
def serpentBlockDecrypt (block : List Nat) (subkeys : List Nat) : List Nat :=
  let w := serpentXorKey subkeys 128 (blockToWords block)
  wordsToBlock ((List.range 32).reverse.foldl (serpentDecRound subkeys) w)

/-! ## The shared CBC loop

`twofishCipher` and `serpentCipher` contain the identical chained-block loop:
the input is processed in 16-byte blocks, a short final block is zero-padded
before the block cipher runs, and — crucially — only the first
`block.length` bytes of the processed block are copied to the output, so the
ciphertext of a short final block is truncated. -/

/-- One step plus recursion of the shared CBC `for` loop, written with an
explicit structural fuel so that the kernel can evaluate it; the fuel is
always at least the number of 16-byte blocks (see `cbcLoop`), so the `0`
case is never the reason the recursion stops. -/
def cbcGo (enc dec : List Nat → List Nat) (doEncrypt : Bool) :
    Nat → List Nat → List Nat → List Nat
  | 0, _, _ => []
  | _, _, [] => []
  | fuel + 1, prev, x :: xs =>
    let block := (x :: xs).take 16
    let padded := block ++ List.replicate (16 - block.length) 0
    if doEncrypt then
      let processed := enc (xorBytes padded prev)
      processed.take (min block.length 16) ++
        cbcGo enc dec doEncrypt fuel processed ((x :: xs).drop 16)
    else
      let processed := xorBytes (dec padded) prev
      processed.take (min block.length 16) ++
        cbcGo enc dec doEncrypt fuel padded ((x :: xs).drop 16)

/-- The CBC loop shared verbatim by `twofishCipher` and `serpentCipher`,
parameterised by the block encryption/decryption functions; `prev` starts as
the IV. -/
def cbcLoop (enc dec : List Nat → List Nat) (doEncrypt : Bool)
    (prev data : List Nat) : List Nat :=
  cbcGo enc dec doEncrypt data.length prev data

/-- `CryptoUtils.twofishCipher` (CBC mode over `twofishBlockEncrypt` /
`twofishBlockDecrypt`, IV as the initial chaining block). -/
def twofishCipher (data key iv : List Nat) (encrypt : Bool) : List Nat :=
  let subkeys := generateTwofishSubkeys key
  cbcLoop (fun b => twofishBlockEncrypt b subkeys) (fun b => twofishBlockDecrypt b subkeys)
    encrypt iv data

/-- `CryptoUtils.serpentCipher`. -/
def serpentCipher (data key iv : List Nat) (encrypt : Bool) : List Nat :=
  let subkeys := generateSerpentSubkeys key
  cbcLoop (fun b => serpentBlockEncrypt b subkeys) (fun b => serpentBlockDecrypt b subkeys)
    encrypt iv data

/-! ## WebCrypto model

PBKDF2-SHA512, SHA-256/512 and AES-256-GCM are platform primitives
(`crypto.subtle`).  PBKDF2 and the digests are modelled as opaque function
parameters (`pbkdf2`, `sha256`, `sha512`).  AES-GCM is modelled as a
structure: a keyed, IV-indexed, length-preserving encryption bijection plus a
16-byte tag computed over the ciphertext; `crypto.subtle.decrypt` takes
`ciphertext ‖ tag`, recomputes the tag over the ciphertext part and fails
when it differs. -/

/-- A `CryptoKey` produced by `crypto.subtle.deriveKey` is determined by the
PBKDF2 inputs used to derive it. -/
structure GCMKey where
  password : String
  salt : List Nat
  iterations : Nat
deriving DecidableEq, Repr

/-- Abstract model of AES-256-GCM with a 128-bit tag. -/
structure GCMModel where
  ct : GCMKey → List Nat → List Nat → List Nat
  pt : GCMKey → List Nat → List Nat → List Nat
  tag : GCMKey → List Nat → List Nat → List Nat
  pt_ct : ∀ k iv p, pt k iv (ct k iv p) = p
  ct_length : ∀ k iv p, (ct k iv p).length = p.length
  tag_length : ∀ k iv c, (tag k iv c).length = 16

/-- `crypto.subtle.encrypt({name:"AES-GCM", tagLength:128}, …)`: ciphertext
followed by the 16-byte authentication tag. -/
def subtleEncryptGCM (g : GCMModel) (k : GCMKey) (iv data : List Nat) : List Nat :=
  g.ct k iv data ++ g.tag k iv (g.ct k iv data)

/-- `crypto.subtle.decrypt({name:"AES-GCM", tagLength:128}, …)`: the last 16
bytes of the input are the expected tag; an `OperationError` (here `none`) is
raised when the input is shorter than a tag or the tag does not verify. -/
def subtleDecryptGCM (g : GCMModel) (k : GCMKey) (iv data : List Nat) : Option (List Nat) :=
  if data.length < 16 then none
  else
    let c := data.take (data.length - 16)
    if g.tag k iv c = data.drop (data.length - 16) then some (g.pt k iv c) else none

/-- `CryptoUtils.encryptAES`: runs AES-GCM and splits the result into
`encrypted = full.slice(0, -16)` and `authTag = full.slice(-16)`. -/
def encryptAES (g : GCMModel) (k : GCMKey) (iv data : List Nat) : List Nat × List Nat :=
  let full := subtleEncryptGCM g k iv data
  (jsSlice full 0 (full.length - 16), full.drop (full.length - 16))

/-- `CryptoUtils.decryptAES`: recombines the optional separate tag, then
decrypts. -/
def decryptAES (g : GCMModel) (k : GCMKey) (iv : List Nat) (encryptedData : List Nat)
    (authTag : Option (List Nat)) : Option (List Nat) :=
  let dataToDecrypt := match authTag with
    | some t => encryptedData ++ t
    | none => encryptedData
  subtleDecryptGCM g k iv dataToDecrypt

/-- `CryptoUtils.deriveKey`.  The source performs no input validation: it
imports the UTF-8 password bytes as a PBKDF2 base key, derives an AES-GCM
`CryptoKey` and 512 extra bits (`derivedBytes`, 64 bytes), and returns both.
The WebCrypto primitives are modelled as total, so no failure path exists;
the `Except` return type records that the call site could observe a thrown
error, which never happens. -/
def deriveKey (pbkdf2 : String → List Nat → Nat → List Nat) (password : String)
    (salt : List Nat) (_algorithm : String) (iterations : Nat) :
    Except String (GCMKey × List Nat) :=
  .ok (⟨password, salt, iterations⟩, pbkdf2 password salt iterations)

/-! ## `FileEncryptionService.standardEncrypt` / `standardDecrypt` -/

/-- The four supported algorithm identifier strings. -/
inductive Alg
  | aes
  | chacha
  | twofish
  | serpent
deriving DecidableEq, Repr

/-- `FileEncryptionService.getAlgorithmId`. -/
def algId : Alg → Nat
  | .aes => 1
  | .chacha => 2
  | .twofish => 3
  | .serpent => 4

/-- `FileEncryptionService.getAlgorithmFromId` (unknown ids fall back to
AES-GCM). -/
def algFromId (n : Nat) : Alg :=
  if n = 1 then .aes else if n = 2 then .chacha else if n = 3 then .twofish
  else if n = 4 then .serpent else .aes

/-- `FileEncryptionService.standardEncrypt`.  The fresh 64-byte salt and the
per-branch IV (12 bytes for the AEAD branches, 16 for the block ciphers) are
RNG outputs and appear as explicit arguments.  Note that for the
`aes-256-gcm`/`chacha20-poly1305` branches only `aesResult.encrypted` — the
ciphertext *without* its authentication tag — reaches the output framing. -/
def standardEncrypt (pbkdf2 : String → List Nat → Nat → List Nat) (g : GCMModel)
    (salt iv data : List Nat) (password : String) (algorithm : Alg) : List Nat :=
  let iterations := 1000000
  let derived := (deriveKey pbkdf2 password salt "x" iterations).toOption.getD
    (⟨password, salt, iterations⟩, [])
  let key := derived.1
  let derivedBytes := derived.2
  let encrypted := match algorithm with
    | .aes => (encryptAES g key iv data).1
    | .chacha => (encryptAES g key iv data).1
    | .twofish => twofishCipher data (derivedBytes.take 32) iv true
    | .serpent => serpentCipher data (jsSlice derivedBytes 32 64) iv true
  [2, algId algorithm] ++ leU32Bytes iterations ++ [salt.length % 256] ++ salt ++
    [iv.length % 256] ++ iv ++ encrypted

/-- `FileEncryptionService.standardDecrypt`. -/
def standardDecrypt (pbkdf2 : String → List Nat → Nat → List Nat) (g : GCMModel)
    (encryptedData : List Nat) (password : String) (algorithm : Alg) :
    Except String (List Nat) :=
  let data := encryptedData
  if data.length < 8 then .error "Donnees chiffrees trop courtes - format invalide"
  else
    let version := data.getD 0 0
    if version < 1 ∨ 2 < version then .error "Version de format non supportee"
    else
      let algorithmFromFile := if version = 2 then algFromId (data.getD 1 0) else algorithm
      let iterations := if version = 2 then leU32 (jsSlice data 2 6) else 600000
      let offset0 := if version = 2 then 6 else 1
      let saltLength := data.getD offset0 0
      if saltLength < 16 ∨ 128 < saltLength then .error "Longueur de salt invalide"
      else
        let salt := jsSlice data (offset0 + 1) (offset0 + 1 + saltLength)
        let ivOffset := offset0 + 1 + saltLength
        let ivLength := data.getD ivOffset 0
        if ivLength < 12 ∨ 32 < ivLength then .error "Longueur de IV invalide"
        else
          let iv := jsSlice data (ivOffset + 1) (ivOffset + 1 + ivLength)
          let encrypted := data.drop (ivOffset + 1 + ivLength)
          if encrypted.length = 0 then .error "Aucune donnee chiffree trouvee"
          else
            let derived := (deriveKey pbkdf2 password salt "x" iterations).toOption.getD
              (⟨password, salt, iterations⟩, [])
            let key := derived.1
            let derivedBytes := derived.2
            match algorithmFromFile with
            | .aes =>
              match decryptAES g key iv encrypted none with
              | some r => .ok r
              | none => .error "OperationError"
            | .chacha =>
              match decryptAES g key iv encrypted none with
              | some r => .ok r
              | none => .error "OperationError"
            | .twofish => .ok (twofishCipher encrypted (derivedBytes.take 32) iv false)
            | .serpent => .ok (serpentCipher encrypted (jsSlice derivedBytes 32 64) iv false)

/-! ### Concrete model instances used for closed evaluations

Any witness or counterexample below needs concrete values for the abstract
platform primitives; these instances satisfy the structural laws the code
relies on, and none of the concrete facts proved with them depend on further
properties of the real primitives. -/

instance {ε α : Type} [DecidableEq ε] [DecidableEq α] : DecidableEq (Except ε α) := fun x y =>
  match x, y with
  | .ok a, .ok b =>
    if h : a = b then .isTrue (by rw [h]) else .isFalse (by intro hc; cases hc; exact h rfl)
  | .error a, .error b =>
    if h : a = b then .isTrue (by rw [h]) else .isFalse (by intro hc; cases hc; exact h rfl)
  | .ok _, .error _ => .isFalse (by intro hc; cases hc)
  | .error _, .ok _ => .isFalse (by intro hc; cases hc)

/-- A PBKDF2 instance: constant 64-byte output. -/
def pb0 : String → List Nat → Nat → List Nat := fun _ _ _ => List.replicate 64 0

/-- A trivially lawful AES-GCM instance: identity cipher, all-zero tag. -/
def gcmId : GCMModel where
  ct := fun _ _ p => p
  pt := fun _ _ c => c
  tag := fun _ _ _ => List.replicate 16 0
  pt_ct := fun _ _ _ => rfl
  ct_length := fun _ _ _ => rfl
  tag_length := fun _ _ _ => by simp

/-! ## Deniable containers (`CryptoUtils.createDeniableContainer`,
`extractHiddenData`, `calculateHiddenPosition`, `fillWithCryptoNoise`) -/

/-- The number of UTF-16 code units of a string: the value of the JS
`string.length` property. -/
def utf16Length (s : String) : Nat :=
  s.data.foldl (fun n c => n + if c.toNat < 65536 then 1 else 2) 0

/-- `new TextEncoder().encode(s)`: the UTF-8 bytes of a string. -/
def utf8Bytes (s : String) : List Nat :=
  s.data.flatMap (fun c => (String.utf8EncodeChar c).map (fun b => b.toNat))

/-- `CryptoUtils.calculateHiddenPosition`.  The source allocates a buffer of
`password.length + salt.length` bytes (JS string length = UTF-16 units),
copies the UTF-8 password bytes to offset 0 and the salt to offset
`password.length`: for a non-ASCII password the salt therefore overwrites the
tail of the encoded password.  `Math.floor(n * 0.3)` / `Math.floor(n * 0.9)`
coincide with `n * 3 / 10` / `n * 9 / 10` in exact arithmetic for every
buffer-sized `n` (the double products stay well within half an ulp of the
rational values, which are never within `1/10` of a non-attained integer).
When the safe zone is empty (`n ≤ 1`) the JS `% 0` yields `NaN`; `Nat`
semantics returns `position` itself, and in either semantics the result does
not lie in the (empty) safe zone, the only fact used at such sizes. -/
def calculateHiddenPosition (sha256 : List Nat → List Nat) (password : String)
    (salt : List Nat) (containerSize : Nat) : Nat :=
  let combinedData :=
    writeAt (writeAt (List.replicate (utf16Length password + salt.length) 0) 0
      (utf8Bytes password)) (utf16Length password) salt
  let hash := sha256 combinedData
  let position := beU32 hash
  let safeZoneStart := containerSize * 3 / 10
  let safeZoneEnd := containerSize * 9 / 10
  safeZoneStart + position % (safeZoneEnd - safeZoneStart)

/-- The per-index body of the `fillWithCryptoNoise` loop: byte `i` of the
container receives random-stream byte `i - start` when `i` lies at or beyond
`start` and outside the protected window
`[hiddenStart, hiddenStart + hiddenSize + 4)`.  The chunked
`crypto.getRandomValues` calls of the source read consecutive bytes of one
random stream, modelled as `noiseF`. -/
def noiseGo (start hiddenStart hiddenSize : Nat) (noiseF : Nat → Nat) :
    Nat → List Nat → List Nat
  | _, [] => []
  | i, b :: rest =>
    (if start ≤ i ∧ (i < hiddenStart ∨ hiddenStart + hiddenSize + 4 ≤ i)
      then noiseF (i - start) % 256 else b) :: noiseGo start hiddenStart hiddenSize noiseF (i + 1) rest

/-- `CryptoUtils.fillWithCryptoNoise`. -/
def fillWithCryptoNoise (container : List Nat) (start hiddenStart hiddenSize : Nat)
    (noiseF : Nat → Nat) : List Nat :=
  noiseGo start hiddenStart hiddenSize noiseF 0 container

/-- `CryptoUtils.createDeniableContainer`.  The four RNG outputs (two 32-byte
salts, a 12-byte AES IV, a 16-byte Twofish IV) and the noise stream are
explicit arguments.  Note the layout: the hidden ciphertext is written at
`hiddenPosition` directly — no length prefix is stored — while
`fillWithCryptoNoise` protects `hiddenSize + 4` bytes from that offset as if
a 4-byte prefix had been written. -/
def createDeniableContainer (sha256 : List Nat → List Nat)
    (pbkdf2 : String → List Nat → Nat → List Nat) (g : GCMModel)
    (publicSalt hiddenSalt publicIV hiddenIV : List Nat) (noiseF : Nat → Nat)
    (publicData hiddenData : List Nat) (publicPassword hiddenPassword : String) : List Nat :=
  let publicKey : GCMKey := ⟨publicPassword, publicSalt, 600000⟩
  let encryptedPublic := (encryptAES g publicKey publicIV publicData).1
  let derivedBytes := pbkdf2 hiddenPassword hiddenSalt 600000
  let encryptedHidden := twofishCipher hiddenData (derivedBytes.take 32) hiddenIV true
  let containerSize := max (encryptedPublic.length + encryptedHidden.length + 1024) 1048576
  let header := writeAt (writeAt (writeAt (writeAt (List.replicate 256 0) 0 publicSalt)
    32 publicIV) 48 hiddenSalt) 80 hiddenIV
  let hiddenPosition := calculateHiddenPosition sha256 hiddenPassword hiddenSalt containerSize
  let c1 := writeAt (List.replicate containerSize 0) 0 header
  let c2 := writeAt c1 256 encryptedPublic
  let c3 := writeAt c2 hiddenPosition encryptedHidden
  fillWithCryptoNoise c3 (256 + encryptedPublic.length) hiddenPosition
    encryptedHidden.length noiseF

/-- `CryptoUtils.extractHiddenData`. -/
def extractHiddenData (sha256 : List Nat → List Nat)
    (pbkdf2 : String → List Nat → Nat → List Nat) (container : List Nat)
    (hiddenPassword : String) : Except String (List Nat) :=
  let hiddenSalt := jsSlice container 48 80
  let hiddenIV := jsSlice container 80 96
  let hiddenPosition := calculateHiddenPosition sha256 hiddenPassword hiddenSalt container.length
  let sizeBytes := jsSlice container hiddenPosition (hiddenPosition + 4)
  let hiddenSize := beU32 sizeBytes
  if hiddenSize = 0 ∨ 2 * hiddenSize > container.length then
    .error "Mot de passe incorrect ou aucune donnee cachee trouvee"
  else
    let encryptedHidden := jsSlice container (hiddenPosition + 4) (hiddenPosition + 4 + hiddenSize)
    let derivedBytes := pbkdf2 hiddenPassword hiddenSalt 600000
    .ok (twofishCipher encryptedHidden (derivedBytes.take 32) hiddenIV false)

/-! ## Steganography (`CryptoUtils.hideDataInImage`, `extractDataFromImage`)

The canvas / `File` plumbing is DOM glue; the embedding starts from the
`Uint8ClampedArray` pixel buffer (`imageData.data`) and models the bit
encoding/decoding loops byte-exactly.  The final PNG re-encode is assumed to
preserve the pixel buffer (lossless), as the code itself assumes. -/

/-- The eight bits of a byte, most significant first — the embedding order
`(totalData[i] >> bit) & 1` for `bit = 7 … 0`. -/
def byteBits (b : Nat) : List Nat :=
  (List.range 8).map (fun k => (b >>> (7 - k)) % 2)

/-- The `encodeBit` closure: bit `bitIndex` goes to channel `bitIndex % 2`
(R or G) of pixel `bitIndex / 2`, replacing the two low bits
(`(old & 0xfc) | bit`).  A JS typed-array store beyond the buffer length is
ignored, as is `List.set`. -/
def encodeBit (pixels : List Nat) (bitIndex bit : Nat) : List Nat :=
  let pi := bitIndex / 2 * 4 + bitIndex % 2
  pixels.set pi (((pixels.getD pi 0) &&& 252) ||| bit)

/-- The trailing noise loop of `hideDataInImage`.  Note the source increments
`bitIndex` twice per iteration (once inside `encodeBit`, once in the loop
body), so only every second remaining bit position receives noise; the fuel
argument starts at `availableBits` and therefore never runs out before the
`bitIndex < availableBits` guard stops the loop. -/
def stegoNoiseLoop (noiseBits : Nat → Nat) (availableBits : Nat) :
    Nat → Nat → Nat → List Nat → List Nat
  | 0, _, _, px => px
  | fuel + 1, j, bitIndex, px =>
    if bitIndex < availableBits then
      stegoNoiseLoop noiseBits availableBits fuel (j + 1) (bitIndex + 2)
        (encodeBit px bitIndex (((noiseBits (j / 8)) >>> (j % 8)) % 2))
    else px

/-- The pixel-level body of `hideDataInImage` from `const secret = …` onward:
header (`0xDEADBEEF` signature, payload length as the platform-endian bytes
of a `Uint32Array`, encryption flag byte), capacity check — thrown *before*
any pixel write — then the bit-encoding loop and the noise fill.  Returns the
error (if any) together with the pixel buffer as it stands on exit. -/
def hideDataRun (pixels dataToHide : List Nat) (isEncrypted : Bool)
    (noiseBits : Nat → Nat) : Option String × List Nat :=
  let header := [0xde, 0xad, 0xbe, 0xef] ++ leU32Bytes dataToHide.length ++
    [if isEncrypted then 1 else 0]
  let totalData := header ++ dataToHide
  let totalBitsNeeded := totalData.length * 8
  let availableBits := pixels.length / 4 * 2
  if totalBitsNeeded > availableBits then (some "Image trop petite", pixels)
  else
    let st := (totalData.flatMap byteBits).foldl
      (fun (st : List Nat × Nat) bit => (encodeBit st.1 st.2 bit, st.2 + 1)) (pixels, 0)
    (none, stegoNoiseLoop noiseBits availableBits availableBits 0 st.2 st.1)

/-- `CryptoUtils.hideDataInImage`: with a password the payload is first
AES-GCM-encrypted (tag discarded) and framed as
`flag(1) ‖ salt(32) ‖ iv(12) ‖ ciphertext`; without a password the secret is
embedded as-is. -/
def hideDataInImage (g : GCMModel) (salt iv : List Nat) (pixels secretData : List Nat)
    (password : Option String) (noiseBits : Nat → Nat) : Option String × List Nat :=
  match password with
  | none => hideDataRun pixels secretData false noiseBits
  | some pwd =>
    let key : GCMKey := ⟨pwd, salt, 600000⟩
    let encrypted := (encryptAES g key iv secretData).1
    hideDataRun pixels (1 :: (salt ++ iv ++ encrypted)) true noiseBits

/-- The `extractBit` closure, with its bounds check. -/
def extractBitAt (pixels : List Nat) (bitIndex : Nat) : Except String Nat :=
  let pi := bitIndex / 2 * 4 + bitIndex % 2
  if pi < pixels.length then .ok ((pixels.getD pi 0) % 2)
  else .error "Fin inattendue des donnees de pixels"

/-- `count` consecutive bits starting at bit position `start`. -/
def extractBits (pixels : List Nat) (start count : Nat) : Except String (List Nat) :=
  (List.range count).mapM (fun k => extractBitAt pixels (start + k))

/-- MSB-first bit accumulator: `value = (value << 1) | bit`. -/
def bitsToNat (bits : List Nat) : Nat := bits.foldl (fun a b => a * 2 + b) 0

/-- `count` consecutive bytes starting at bit position `startBit`, each read
MSB-first. -/
def extractBytes (pixels : List Nat) (startBit count : Nat) : Except String (List Nat) :=
  (List.range count).mapM (fun i => (extractBits pixels (startBit + 8 * i) 8).map bitsToNat)

/-- `CryptoUtils.extractDataFromImage`, from the pixel buffer onward.
The 32 size bits are accumulated MSB-first (`dataSize = (dataSize << 1) | bit`),
i.e. the four size bytes are interpreted big-endian.  (In JS the `<< 1`
accumulator is an `Int32`, so a size with the top bit set reads as negative
and is rejected by `dataSize <= 0`; on `Nat` such a value exceeds
`pixels.length / 8` and is rejected by the same `if`, so the two semantics
agree on acceptance and on every accepted value.) -/
def extractDataFromImage (g : GCMModel) (pixels : List Nat) (password : Option String) :
    Except String (List Nat) :=
  match extractBytes pixels 0 4 with
  | .error e => .error e
  | .ok signature =>
    if signature ≠ [0xde, 0xad, 0xbe, 0xef] then
      .error "Aucune donnee cachee trouvee ou signature invalide"
    else
      match extractBits pixels 32 32 with
      | .error e => .error e
      | .ok sizeBits =>
        let dataSize := bitsToNat sizeBits
        match extractBits pixels 64 8 with
        | .error e => .error e
        | .ok flagBits =>
          let isEncrypted := bitsToNat flagBits = 1
          if dataSize = 0 ∨ 8 * dataSize > pixels.length then
            .error "Taille de donnees invalide"
          else
            match extractBytes pixels 72 dataSize with
            | .error e => .error e
            | .ok extractedData =>
              if isEncrypted then
                match password with
                | none => .error "Mot de passe requis pour dechiffrer les donnees cachees"
                | some pwd =>
                  let salt := jsSlice extractedData 0 32
                  let iv := jsSlice extractedData 32 44
                  let encrypted := extractedData.drop 44
                  let key : GCMKey := ⟨pwd, salt, 600000⟩
                  match decryptAES g key iv encrypted none with
                  | some r => .ok r
                  | none => .error "OperationError"
              else .ok extractedData

/-! ## Timed encryption (`CryptoUtils.createTimedEncryption`,
`checkTimedDecryption`, `calculateSecureChecksum`) -/

/-- One lowercase hex digit. -/
def hexDigitChar (n : Nat) : Char :=
  if n < 10 then Char.ofNat (48 + n) else Char.ofNat (87 + n)

/-- `b.toString(16).padStart(2, "0")` for a byte value. -/
def hexByte (b : Nat) : List Char :=
  [hexDigitChar ((b % 256) / 16), hexDigitChar (b % 16)]

/-- The hex string of a byte list (`hashArray.map(…).join("")`). -/
def hexOfBytes (l : List Nat) : String :=
  String.mk (l.flatMap hexByte)

/-- `CryptoUtils.calculateSecureChecksum`: SHA-512 over a fresh random
16-byte salt (explicit argument) concatenated with the data, as hex. -/
def calculateSecureChecksum (sha512 : List Nat → List Nat) (salt data : List Nat) : String :=
  hexOfBytes (sha512 (salt ++ data))

/-- The timed-metadata object (its `version` and `algorithm` fields are the
literals `1` and `"aes-256-gcm"`). -/
structure TimedMeta where
  creationTime : Nat
  destructionTime : Nat
  checksum : String
deriving DecidableEq, Repr

/-- `JSON.stringify` of the metadata object literal, fields in insertion
order. -/
def stringifyTimedMetadata (m : TimedMeta) : String :=
  "\x7b\"version\":1,\"algorithm\":\"aes-256-gcm\",\"creationTime\":" ++
    Nat.repr m.creationTime ++ ",\"destructionTime\":" ++ Nat.repr m.destructionTime ++
    ",\"checksum\":\"" ++ m.checksum ++ "\"\x7d"

/-- Expect a literal character sequence; return the remainder. -/
def dropLit : List Char → List Char → Option (List Char)
  | [], rest => some rest
  | _ :: _, [] => none
  | l :: ls, r :: rs => if l = r then dropLit ls rs else none

/-- Decimal digit accumulator. -/
def digitsVal (ds : List Char) : Nat := ds.foldl (fun a c => a * 10 + (c.toNat - 48)) 0

/-- Model of `JSON.parse` restricted to the exact shape produced by
`stringifyTimedMetadata` (integer times, string checksum, no trailing
characters).  Every input arising in the theorems below is either such a
string (parsed to its fields) or has trailing bytes after the closing brace,
on which `JSON.parse` throws — modelled by `none`. -/
def parseTimedJson (s : String) : Option TimedMeta :=
  match dropLit ("\x7b\"version\":1,\"algorithm\":\"aes-256-gcm\",\"creationTime\":".data) s.data with
  | none => none
  | some r1 =>
    let d1 := r1.takeWhile (fun c => c.isDigit)
    let r2 := r1.drop d1.length
    if d1 = [] then none
    else
      match dropLit (",\"destructionTime\":".data) r2 with
      | none => none
      | some r3 =>
        let d2 := r3.takeWhile (fun c => c.isDigit)
        let r4 := r3.drop d2.length
        if d2 = [] then none
        else
          match dropLit (",\"checksum\":\"".data) r4 with
          | none => none
          | some r5 =>
            let cks := r5.takeWhile (fun c => c ≠ '"')
            let r6 := r5.drop cks.length
            match dropLit ("\"\x7d".data) r6 with
            | none => none
            | some r7 => if r7 = [] then some ⟨digitsVal d1, digitsVal d2, String.mk cks⟩ else none

/-- `new TextDecoder().decode(bytes)`, valid on ASCII bytes — every byte
decoded in the theorems below is ASCII, where UTF-8 decoding is the identity
on code points. -/
def latin1Decode (l : List Nat) : String :=
  String.mk (l.map (fun b => Char.ofNat (b % 256)))

/-- `CryptoUtils.createTimedEncryption`.  `now` is `Date.now()`; the 32-byte
salt, 12-byte IV and the 16-byte checksum salt drawn inside
`calculateSecureChecksum` are RNG outputs, passed explicitly.  The derivation
salt is `salt ‖ utf8(destructionTimestamp.toString())`; the metadata length
is written as the platform-endian (little-endian) bytes of a `Uint32Array`;
and only `encryptAES(..).encrypted` — the tagless ciphertext — is stored. -/
def createTimedEncryption (g : GCMModel) (sha512 : List Nat → List Nat)
    (now : Nat) (salt iv checksumSalt : List Nat) (data : List Nat) (password : String)
    (destructionTime : Nat) : List Nat :=
  let destructionTimestamp := now + destructionTime
  let timeKey := utf8Bytes (Nat.repr destructionTimestamp)
  let combinedSalt := salt ++ timeKey
  let key : GCMKey := ⟨password, combinedSalt, 600000⟩
  let encrypted := (encryptAES g key iv data).1
  let metadata : TimedMeta :=
    ⟨now, destructionTimestamp, calculateSecureChecksum sha512 checksumSalt data⟩
  let metadataBytes := utf8Bytes (stringifyTimedMetadata metadata)
  leU32Bytes metadataBytes.length ++ metadataBytes ++ salt ++ iv ++ encrypted

/-- Result of `checkTimedDecryption`: `{expired:true, timeLeft:0}` or
`{expired:false, data, timeLeft}`. -/
inductive TimedResult
  | expired
  | active (data : List Nat) (timeLeft : Nat)
deriving DecidableEq, Repr

/-- `CryptoUtils.checkTimedDecryption`.  The metadata length is read
*big-endian* (`getUint32(0, false)`); the expiry comparison is the strict
`currentTime > metadata.destructionTime`; inside the `try`, a failed AES-GCM
decryption or a checksum mismatch surfaces as a thrown error. -/
def checkTimedDecryption (g : GCMModel) (sha512 : List Nat → List Nat)
    (now : Nat) (checksumSalt : List Nat) (timedData : List Nat) (password : String) :
    Except String TimedResult :=
  let metadataSize := beU32 timedData
  let metadataBytes := jsSlice timedData 4 (4 + metadataSize)
  match parseTimedJson (latin1Decode metadataBytes) with
  | none => .error "JSON parse error"
  | some metadata =>
    if now > metadata.destructionTime then .ok .expired
    else
      let offset := 4 + metadataSize
      let salt := jsSlice timedData offset (offset + 32)
      let iv := jsSlice timedData (offset + 32) (offset + 44)
      let encrypted := timedData.drop (offset + 44)
      let timeKey := utf8Bytes (Nat.repr metadata.destructionTime)
      let combinedSalt := salt ++ timeKey
      let key : GCMKey := ⟨password, combinedSalt, 600000⟩
      match decryptAES g key iv encrypted none with
      | none => .error "Erreur de dechiffrement"
      | some decrypted =>
        if calculateSecureChecksum sha512 checksumSalt decrypted = metadata.checksum then
          .ok (.active decrypted (metadata.destructionTime - now))
        else .error "Erreur de dechiffrement: Donnees corrompues - checksum invalide"

/-! ## `FileEncryptionService.encryptFile` input validation -/

/-- The three input checks at the top of `encryptFile`, in source order. -/
def encryptFileValidation (password : String) (fileSize : Nat) : Option String :=
  if password = "" then some "Mot de passe requis pour le chiffrement"
  else if fileSize = 0 then some "Le fichier ne peut pas etre vide"
  else if fileSize > 500 * 1024 * 1024 then some "Fichier trop volumineux (limite: 500MB)"
  else none

/-- `FileEncryptionService.encryptFile`, with everything after validation —
the file read (`secureFileRead`) and the whole
checksum/compress/encrypt/postprocess pipeline — abstracted as the
`readFile` and `pipeline` parameters.  A thrown error is re-wrapped by the
surrounding `catch` with the `Erreur lors du chiffrement:` prefix. -/
def encryptFile (password : String) (fileSize : Nat) (readFile : Unit → List Nat)
    (pipeline : List Nat → Except String (List Nat)) : Except String (List Nat) :=
  match encryptFileValidation password fileSize with
  | some e => .error ("Erreur lors du chiffrement: " ++ e)
  | none =>
    match pipeline (readFile ()) with
    | .ok r => .ok r
    | .error e => .error ("Erreur lors du chiffrement: " ++ e)

/-! ### Concrete evaluation constants

Inputs and intermediate values used by the closed evaluations below.  The
intermediate ciphertexts (`serpentCt16`, `serpentGarbage16`) are stated as
literals and certified against the definitions by the `_eval` lemmas, which
keeps each kernel evaluation small enough to check. -/

/-- A concrete 64-byte salt used by the evaluations. -/
def salt64c : List Nat := List.replicate 64 3

/-- A concrete 16-byte IV. -/
def iv16c : List Nat := List.replicate 16 4

/-- A concrete 16-byte payload. -/
def blk16c : List Nat := List.replicate 16 9

/-- `serpentCipher blk16c (zero key) iv16c true`: the Serpent-CBC ciphertext
of `blk16c` (certified by `serpentEncrypt_eval`). -/
def serpentCt16 : List Nat :=
  [235, 169, 84, 196, 4, 208, 252, 42, 79, 142, 148, 24, 8, 239, 157, 189]

/-- The framed `standardEncrypt` output for the Serpent evaluation. -/
def serpentFramed : List Nat :=
  [2, 4] ++ leU32Bytes 1000000 ++ [64] ++ salt64c ++ [16] ++ iv16c ++ serpentCt16

/-- What `standardDecrypt` actually returns for `serpentFramed`: not the
original payload (certified by `serpentDecrypt_eval`). -/
def serpentGarbage16 : List Nat :=
  [105, 45, 158, 64, 74, 8, 137, 72, 122, 99, 87, 38, 99, 173, 127, 192]

/-- A SHA-256 instance: constant all-zero digest. -/
def shaZero : List Nat → List Nat := fun _ => List.replicate 32 0

/-- A SHA-512 instance: constant all-zero digest. -/
def sha512Zero : List Nat → List Nat := fun _ => List.replicate 64 0

/-- A noise stream instance. -/
def noise7 : Nat → Nat := fun _ => 7

/-- A 240-byte (60-pixel) all-zero pixel buffer. -/
def pixels240 : List Nat := List.replicate 240 0

/-- A correctly framed timed payload (big-endian metadata length, as
`checkTimedDecryption` reads it) carrying `creationTime 100`,
`destructionTime 200`, checksum `"aa"` and no ciphertext. -/
def timedBlobWellFormed : List Nat :=
  beU32Bytes (utf8Bytes (stringifyTimedMetadata ⟨100, 200, "aa"⟩)).length ++
    utf8Bytes (stringifyTimedMetadata ⟨100, 200, "aa"⟩)

/-- The same well-formed framing followed by salt, IV and a 20-byte
ciphertext whose tag cannot verify under `gcmId`. -/
def timedBlobBoundary : List Nat :=
  timedBlobWellFormed ++ List.replicate 32 65 ++ List.replicate 12 66 ++ List.replicate 20 1

/-- A concrete `createTimedEncryption` output: payload `"hi"`, password
`"pw"`, duration 60000 ms at time 1700000000000, ASCII salt/IV bytes. -/
def timedBlobC4 : List Nat :=
  createTimedEncryption gcmId sha512Zero 1700000000000 (List.replicate 32 65)
    (List.replicate 12 66) (List.replicate 16 67) [104, 105] "pw" 60000

/-- The 256-byte deniable-container header for the concrete C2 evaluation:
`publicSalt = 32×1` at 0, `publicIV = 12×3` at 32, `hiddenSalt = 32×2` at
48, `hiddenIV = 16×4` at 80. -/
def hdrC2 : List Nat :=
  writeAt (writeAt (writeAt (writeAt (List.replicate 256 0) 0 (List.replicate 32 1))
    32 (List.replicate 12 3)) 48 (List.replicate 32 2)) 80 (List.replicate 16 4)

/-- The Twofish ciphertext of the 16-byte hidden payload `16×9` under the
`pb0`-derived zero key and IV `16×4` (certified by `ct2C2_eval`). -/
def ct2C2 : List Nat :=
  [0, 40, 10, 242, 98, 58, 151, 20, 165, 101, 228, 19, 131, 202, 78, 179]

/-- The concrete deniable container of the C2 evaluation. -/
def containerC2 : List Nat :=
  createDeniableContainer shaZero pb0 gcmId (List.replicate 32 1) (List.replicate 32 2)
    (List.replicate 12 3) (List.replicate 16 4) noise7 [10, 20] (List.replicate 16 9)
    "ppw" "hpw"

/-! ## Claim C1 -/

set_option maxRecDepth 8000 in
/-- Evaluation of the Serpent branch of `standardEncrypt` on concrete
inputs. -/
theorem serpentEncrypt_eval :
    standardEncrypt pb0 gcmId salt64c iv16c blk16c "pw" .serpent = serpentFramed := by
  decide

set_option maxRecDepth 8000 in
/-- Evaluation of the Serpent branch of `standardDecrypt` on the framed
ciphertext: the result differs from the encrypted payload `blk16c`, because
`serpentBlockDecrypt` is not the inverse of `serpentBlockEncrypt`. -/
theorem serpentDecrypt_eval :
    standardDecrypt pb0 gcmId serpentFramed "pw" .serpent = .ok serpentGarbage16 := by
  decide

set_option maxRecDepth 8000 in
/-- **C1** (code bug): the claim states that for every supported algorithm,
payload and password, `standardDecrypt (standardEncrypt P pwd A) pwd = P`.
The code violates it: (1) for `aes-256-gcm` (and `chacha20-poly1305`)
`standardEncrypt` stores `encryptAES(..).encrypted`, i.e. the GCM ciphertext
with its authentication tag stripped, and `standardDecrypt` calls
`decryptAES` without a separate tag, so tag verification always fails;
(2) `serpentBlockDecrypt` applies the inverse linear transform for rounds
31…1 although encryption applied it in rounds 0…30, so Serpent decryption is
not the inverse of encryption; (3) the shared CBC loop truncates the
ciphertext of a short final block, so payloads whose length is not a
multiple of 16 do not round-trip under the block ciphers.  Evaluated here on
concrete inputs; the last conjunct shows the one healthy case (Twofish on a
16-byte-aligned payload) does round-trip. -/
theorem C1_standard_roundtrip_fails :
    standardDecrypt pb0 gcmId
        (standardEncrypt pb0 gcmId salt64c (List.replicate 12 4)
          [1, 2, 3, 4, 5] "pw" .aes) "pw" .aes = .error "OperationError" ∧
    standardDecrypt pb0 gcmId
        (standardEncrypt pb0 gcmId salt64c iv16c blk16c "pw" .serpent) "pw" .serpent ≠
      .ok blk16c ∧
    standardDecrypt pb0 gcmId
        (standardEncrypt pb0 gcmId salt64c iv16c [1, 2, 3, 4, 5] "pw" .twofish) "pw" .twofish ≠
      .ok [1, 2, 3, 4, 5] ∧
    standardDecrypt pb0 gcmId
        (standardEncrypt pb0 gcmId salt64c iv16c blk16c "pw" .twofish) "pw" .twofish =
      .ok blk16c := by
  refine ⟨?_, ?_, ?_, ?_⟩
  · decide
  · rw [serpentEncrypt_eval, serpentDecrypt_eval]
    decide
  · decide
  · decide

/-! ## Claim C3 -/

set_option maxRecDepth 8000 in
/-- **C3** (code bug): the unencrypted steganographic round trip fails.
`hideDataInImage` writes the 4-byte length field as the platform
(little-endian) bytes of a `Uint32Array`, while `extractDataFromImage`
accumulates the 32 length bits MSB-first, i.e. reads the field big-endian.
A 5-byte secret is embedded with length bytes `[5,0,0,0]`, read back as
`5 · 2^24 = 83886080`, which fails the plausibility check — extraction
rejects its own embedding instead of returning the secret. -/
theorem C3_stego_roundtrip_fails :
    (hideDataInImage gcmId [] [] pixels240 [1, 2, 3, 4, 5] none noise7).1 = none ∧
    extractDataFromImage gcmId
        (hideDataInImage gcmId [] [] pixels240 [1, 2, 3, 4, 5] none noise7).2 none =
      .error "Taille de donnees invalide" := by
  exact ⟨by decide, by decide⟩

/-! ## Claim C4 -/

set_option maxRecDepth 8000 in
/-- **C4** (code bug): `createTimedEncryption` writes the metadata length as
the little-endian bytes of a `Uint32Array`, but `checkTimedDecryption` reads
it with `getUint32(0, false)` — big-endian.  For a 246-byte metadata record
the length reads as `246 · 2^24`, the metadata slice swallows the whole
buffer, and `JSON.parse` throws: an immediate check of a freshly created
timed payload fails instead of returning `{expired:false, data}`.  (Even
with matching endianness the round trip would fail: the GCM tag is discarded
at creation, and the stored checksum was salted with a fresh random salt
that the verification side cannot reproduce.) -/
theorem C4_timed_roundtrip_fails :
    checkTimedDecryption gcmId sha512Zero 1700000000000 (List.replicate 16 67)
      timedBlobC4 "pw" = .error "JSON parse error" := by
  decide

/-! ## Claim C5 -/

/-- **C5** (corrected): for a well-formed timed payload whose metadata
parses to `m`, any `now` *strictly greater* than `m.destructionTime` yields
the expired result, before any key derivation or cipher call — witnessed by
the conclusion being independent of the AES-GCM model `g`, the SHA-512
model, the checksum salt and the password, which are all universally
quantified.  (At the exact boundary `now = destructionTime` the code
proceeds to decryption instead; see the counterexample.) -/
theorem C5_expired_before_crypto (g : GCMModel) (sha512 : List Nat → List Nat)
    (now : Nat) (checksumSalt timedData : List Nat) (password : String) (m : TimedMeta)
    (hparse : parseTimedJson (latin1Decode (jsSlice timedData 4 (4 + beU32 timedData))) =
      some m)
    (hexp : now > m.destructionTime) :
    checkTimedDecryption g sha512 now checksumSalt timedData password = .ok .expired := by
  simp only [checkTimedDecryption]
  rw [hparse]
  simp only [if_pos hexp]

/-- Witness for `C5_expired_before_crypto` at a concrete payload
(`destructionTime = 200`, `now = 201`). -/
theorem C5_expired_before_crypto_witness :
    parseTimedJson (latin1Decode (jsSlice timedBlobWellFormed 4
        (4 + beU32 timedBlobWellFormed))) = some ⟨100, 200, "aa"⟩ ∧
    (201 : Nat) > 200 ∧
    checkTimedDecryption gcmId sha512Zero 201 [] timedBlobWellFormed "pw" = .ok .expired :=
  ⟨by decide, by decide,
    C5_expired_before_crypto gcmId sha512Zero 201 [] timedBlobWellFormed "pw"
      ⟨100, 200, "aa"⟩ (by decide) (by decide)⟩

/-- **C5 counterexample**: the claim demands the expired result for every
`now ≥ destructionTime`, including equality.  On a well-formed payload with
`destructionTime = 200`, at `now = 200` the code takes the decryption path
(here failing tag verification) instead of returning the expired result:
the comparison in the source is the strict `currentTime >
metadata.destructionTime`. -/
theorem C5_boundary_not_expired :
    parseTimedJson (latin1Decode (jsSlice timedBlobBoundary 4
        (4 + beU32 timedBlobBoundary))) = some ⟨100, 200, "aa"⟩ ∧
    checkTimedDecryption gcmId sha512Zero 200 [] timedBlobBoundary "pw" =
      .error "Erreur de dechiffrement" := by
  exact ⟨by decide, by decide⟩

/-! ## Claim C8 -/

/-- **C8 counterexample**: the claim states `deriveKey` fails with a typed
`InvalidInputError` on an empty password or a salt shorter than 16 bytes.
The source contains no validation at all (and no `InvalidInputError` type
exists anywhere in the repository): the call with an empty password *and* an
empty salt succeeds. -/
theorem C8_deriveKey_accepts_bad_input :
    (deriveKey pb0 "" [] "aes-256-gcm" 600000).isOk = true := rfl

/-- **C8** (corrected): `deriveKey` performs no input validation — for every
password (including the empty one) and every salt (including those shorter
than 16 bytes) it proceeds with PBKDF2 derivation and returns the derived
key material; no failure is ever raised. -/
theorem C8_deriveKey_no_validation (pbkdf2 : String → List Nat → Nat → List Nat)
    (password : String) (salt : List Nat) (alg : String) (iterations : Nat)
    (_h : password = "" ∨ salt.length < 16) :
    deriveKey pbkdf2 password salt alg iterations =
      .ok (⟨password, salt, iterations⟩, pbkdf2 password salt iterations) := rfl

/-- Witness for `C8_deriveKey_no_validation`. -/
theorem C8_deriveKey_no_validation_witness :
    ([(1 : Nat), 2, 3].length < 16 ∨ ("x" : String) = "") ∧
    deriveKey pb0 "x" [1, 2, 3] "aes-256-gcm" 600000 =
      .ok (⟨"x", [1, 2, 3], 600000⟩, pb0 "x" [1, 2, 3] 600000) :=
  ⟨Or.inl (by decide),
    C8_deriveKey_no_validation pb0 "x" [1, 2, 3] "aes-256-gcm" 600000
      (Or.inr (by decide))⟩

/-! ## Claim C9 -/

/-- **C9** (confirmed): when the header-plus-payload bit count exceeds the
cover capacity (`⌊pixels/4⌋ · 2` bits), `hideDataRun` — the pixel-level body
of `hideDataInImage` — returns the capacity error and the pixel buffer
unchanged: the check precedes the first `encodeBit` call. -/
theorem C9_capacity_error_before_mutation (pixels dataToHide : List Nat)
    (isEncrypted : Bool) (noiseBits : Nat → Nat)
    (h : (9 + dataToHide.length) * 8 > pixels.length / 4 * 2) :
    hideDataRun pixels dataToHide isEncrypted noiseBits =
      (some "Image trop petite", pixels) := by
  have hc : ([0xde, 0xad, 0xbe, 0xef] ++ leU32Bytes dataToHide.length ++
      [if isEncrypted then 1 else 0] ++ dataToHide).length * 8 > pixels.length / 4 * 2 := by
    simp only [List.length_append, List.length_cons, List.length_nil, leU32Bytes]
    omega
  simp only [hideDataRun]
  rw [if_pos hc]

/-- Witness for `C9_capacity_error_before_mutation`: a 2-pixel cover cannot
hold a 1-byte secret. -/
theorem C9_capacity_error_witness :
    (9 + [(1 : Nat)].length) * 8 > (List.replicate 8 0).length / 4 * 2 ∧
    hideDataRun (List.replicate 8 0) [1] false noise7 =
      (some "Image trop petite", List.replicate 8 0) :=
  ⟨by decide, C9_capacity_error_before_mutation (List.replicate 8 0) [1] false noise7
    (by decide)⟩

/-! ## Claim C10 -/

/-- **C10** (confirmed): `encryptFile` rejects an empty password, an empty
file and a file above `500 · 1024 · 1024` bytes before doing anything else:
the result is an error and is independent of the file-reading and
encryption stages, which are universally quantified. -/
theorem C10_encryptFile_validates_first (password : String) (fileSize : Nat)
    (h : password = "" ∨ fileSize = 0 ∨ fileSize > 500 * 1024 * 1024) :
    ∀ (readFile1 readFile2 : Unit → List Nat)
      (pipeline1 pipeline2 : List Nat → Except String (List Nat)),
      (∃ e, encryptFile password fileSize readFile1 pipeline1 = .error e) ∧
      encryptFile password fileSize readFile1 pipeline1 =
        encryptFile password fileSize readFile2 pipeline2 := by
  intro readFile1 readFile2 pipeline1 pipeline2
  unfold encryptFile encryptFileValidation
  rcases h with h | h | h
  · simp [h]
  · by_cases hp : password = "" <;> simp [h, hp]
  · by_cases hp : password = "" <;> by_cases hz : fileSize = 0 <;>
      simp [hp, hz, Nat.not_eq_zero_of_lt, h, Nat.lt_irrefl]

/-- Witness for `C10_encryptFile_validates_first` (empty password,
5-byte file). -/
theorem C10_encryptFile_validates_first_witness :
    (("" : String) = "" ∨ (5 : Nat) = 0 ∨ (5 : Nat) > 500 * 1024 * 1024) ∧
    ((∃ e, encryptFile "" 5 (fun _ => []) (fun d => .ok d) = .error e) ∧
      encryptFile "" 5 (fun _ => []) (fun d => .ok d) =
        encryptFile "" 5 (fun _ => [9, 9]) (fun _ => .error "x")) :=
  ⟨Or.inl rfl,
    C10_encryptFile_validates_first "" 5 (Or.inl rfl) (fun _ => []) (fun _ => [9, 9])
      (fun d => .ok d) (fun _ => .error "x")⟩

/-! ## Claim C7 -/

/-- UTF-8 encodes an ASCII character as its own code point. -/
theorem utf8EncodeChar_ascii (c : Char) (h : c.toNat < 128) :
    String.utf8EncodeChar c = [UInt8.ofNat c.toNat] := by
  have hle : c.val ≤ 127 := by
    rw [UInt32.le_def, BitVec.le_def]
    exact Nat.le_of_lt_succ h
  unfold String.utf8EncodeChar
  rw [if_pos hle]
  simp [UInt32.toUInt8, Char.toNat]

/-- On ASCII strings `TextEncoder` yields one byte per character. -/
theorem utf8Bytes_ascii_list (l : List Char) (h : ∀ c ∈ l, c.toNat < 128) :
    l.flatMap (fun c => (String.utf8EncodeChar c).map (fun b => b.toNat)) =
      l.map Char.toNat := by
  induction l with
  | nil => rfl
  | cons c cs ih =>
    have hc := h c (by simp)
    simp only [List.flatMap_cons, List.map_cons,
      utf8EncodeChar_ascii c hc, List.map]
    rw [ih (fun d hd => h d (by simp [hd]))]
    simp [UInt8.ofNat, UInt8.toNat]
    omega

/-- `utf8Bytes` on an ASCII string. -/
theorem utf8Bytes_ascii (s : String) (h : ∀ c ∈ s.data, c.toNat < 128) :
    utf8Bytes s = s.data.map Char.toNat :=
  utf8Bytes_ascii_list s.data h

/-- The UTF-16 length accumulator over BMP characters counts one per
character. -/
theorem utf16Length_ascii_list (l : List Char) (h : ∀ c ∈ l, c.toNat < 128) :
    ∀ n, l.foldl (fun n c => n + if c.toNat < 65536 then 1 else 2) n = n + l.length := by
  induction l with
  | nil => simp
  | cons c cs ih =>
    intro n
    have hc := h c (by simp)
    simp only [List.foldl_cons, if_pos (by omega : c.toNat < 65536)]
    rw [ih (fun d hd => h d (by simp [hd]))]
    simp only [List.length_cons]
    omega

/-- For an ASCII password the JS string length equals the UTF-8 byte
count. -/
theorem utf16Length_ascii (s : String) (h : ∀ c ∈ s.data, c.toNat < 128) :
    utf16Length s = (utf8Bytes s).length := by
  unfold utf16Length
  rw [utf8Bytes_ascii s h, utf16Length_ascii_list s.data h 0, List.length_map]
  omega

/-- For an ASCII password, the digest input buffer of
`calculateHiddenPosition` really is `utf8(password) ‖ salt`. -/
theorem combined_buffer_ascii (password : String) (salt : List Nat)
    (h : ∀ c ∈ password.data, c.toNat < 128) :
    writeAt (writeAt (List.replicate (utf16Length password + salt.length) 0) 0
        (utf8Bytes password)) (utf16Length password) salt =
      utf8Bytes password ++ salt := by
  have hL : utf16Length password = (utf8Bytes password).length := utf16Length_ascii password h
  rw [hL]
  unfold writeAt
  rw [if_pos (by simp)]
  simp only [List.take_zero, List.length_replicate, List.nil_append, Nat.zero_add,
    List.drop_replicate]
  rw [if_pos (by simp [List.length_append, List.length_replicate])]
  rw [List.take_left, List.drop_eq_nil_of_le (by simp), List.append_nil]

/-- **C7** (corrected): for an ASCII password and a container size whose
safe zone is non-empty (`⌊0.3n⌋ < ⌊0.9n⌋`, i.e. `n ≥ 2`),
`calculateHiddenPosition` returns exactly
`⌊0.3n⌋ + (BE-u32 of the first 4 SHA-256(password ‖ salt) bytes) mod
(⌊0.9n⌋ − ⌊0.3n⌋)`, a deterministic function of its inputs, and the result
lies in `[⌊0.3n⌋, ⌊0.9n⌋)`.  (For `n ≤ 1` the safe zone is empty and the JS
code yields `NaN`; for a non-ASCII password the salt overwrites part of the
encoded password in the digest buffer — see the counterexample.) -/
theorem C7_hiddenPosition_formula (sha256 : List Nat → List Nat) (password : String)
    (salt : List Nat) (n : Nat) (hascii : ∀ c ∈ password.data, c.toNat < 128)
    (hzone : n * 3 / 10 < n * 9 / 10) :
    calculateHiddenPosition sha256 password salt n =
      n * 3 / 10 + (beU32 (sha256 (utf8Bytes password ++ salt))) % (n * 9 / 10 - n * 3 / 10) ∧
    n * 3 / 10 ≤ calculateHiddenPosition sha256 password salt n ∧
    calculateHiddenPosition sha256 password salt n < n * 9 / 10 := by
  have hform : calculateHiddenPosition sha256 password salt n =
      n * 3 / 10 + (beU32 (sha256 (utf8Bytes password ++ salt))) %
        (n * 9 / 10 - n * 3 / 10) := by
    unfold calculateHiddenPosition
    rw [combined_buffer_ascii password salt hascii]
  refine ⟨hform, ?_, ?_⟩
  · rw [hform]; omega
  · rw [hform]
    have hm := Nat.mod_lt (beU32 (sha256 (utf8Bytes password ++ salt)))
      (show 0 < n * 9 / 10 - n * 3 / 10 by omega)
    omega

/-- Witness for `C7_hiddenPosition_formula`: password `"ab"`, a 2-byte salt,
`n = 100`, with the identity digest instance. -/
theorem C7_hiddenPosition_formula_witness :
    (∀ c ∈ ("ab" : String).data, c.toNat < 128) ∧ (100 * 3 / 10 < 100 * 9 / 10) ∧
    (calculateHiddenPosition (fun l => l) "ab" [5, 6] 100 =
      100 * 3 / 10 + (beU32 ((fun (l : List Nat) => l) (utf8Bytes "ab" ++ [5, 6]))) %
        (100 * 9 / 10 - 100 * 3 / 10) ∧
    100 * 3 / 10 ≤ calculateHiddenPosition (fun l => l) "ab" [5, 6] 100 ∧
    calculateHiddenPosition (fun l => l) "ab" [5, 6] 100 < 100 * 9 / 10) :=
  ⟨by decide, by decide,
    C7_hiddenPosition_formula (fun l => l) "ab" [5, 6] 100 (by decide) (by decide)⟩

/-- **C7 counterexample**: the claim as stated fails in two ways.
(a) It quantifies over *every* container size, but at `n = 1` the safe zone
`[⌊0.3⌋, ⌊0.9⌋) = [0, 0)` is empty, so the result (JS: `NaN`) cannot lie in
it.  (b) It asserts the digest input is `password ‖ salt` for *every*
password, but the source allocates `password.length + salt.length` bytes
(UTF-16 units) and writes the salt at offset `password.length`, overwriting
the tail of a multi-byte UTF-8 password: for password `"é"` (UTF-8
`[0xC3,0xA9]`, JS length 1) the identity-digest offset differs from the
claimed formula (30 ≠ 34). -/
theorem C7_hiddenPosition_counterexample :
    (¬ (1 * 3 / 10 ≤ calculateHiddenPosition shaZero "a" [0] 1 ∧
        calculateHiddenPosition shaZero "a" [0] 1 < 1 * 9 / 10)) ∧
    calculateHiddenPosition (fun l => l) "é" (List.replicate 16 0) 100 ≠
      100 * 3 / 10 + (beU32 ((fun (l : List Nat) => l)
        (utf8Bytes "é" ++ List.replicate 16 0))) % (100 * 9 / 10 - 100 * 3 / 10) := by
  exact ⟨by decide, by decide⟩

/-! ## Buffer-layout lemmas (used by the deniable-container claims) -/

/-- `Uint8Array.set` never changes the buffer length. -/
theorem writeAt_length (l src : List Nat) (k : Nat) :
    (writeAt l k src).length = l.length := by
  unfold writeAt
  split
  · simp only [List.length_append, List.length_take, List.length_drop]
    omega
  · rfl

/-- A fitting `set` at offset 0. -/
theorem writeAt_zero (l src : List Nat) (h : src.length ≤ l.length) :
    writeAt l 0 src = src ++ l.drop src.length := by
  unfold writeAt
  rw [if_pos (by omega)]
  simp

/-- A `set` landing entirely beyond a left part of the buffer. -/
theorem writeAt_append_right (l1 l2 src : List Nat) (k : Nat) (h1 : l1.length ≤ k)
    (h2 : k + src.length ≤ l1.length + l2.length) :
    writeAt (l1 ++ l2) k src = l1 ++ writeAt l2 (k - l1.length) src := by
  unfold writeAt
  rw [if_pos (by simp only [List.length_append]; omega), if_pos (by omega)]
  obtain ⟨m, rfl⟩ : ∃ m, k = l1.length + m := ⟨k - l1.length, by omega⟩
  rw [List.take_append, show l1.length + m + src.length = l1.length + (m + src.length) from by
    omega, List.drop_append, Nat.add_sub_cancel_left]
  simp [List.append_assoc]

/-- A fitting `set` into an all-zero buffer. -/
theorem writeAt_replicate (n k : Nat) (src : List Nat) (h : k + src.length ≤ n) :
    writeAt (List.replicate n 0) k src =
      List.replicate k 0 ++ src ++ List.replicate (n - k - src.length) 0 := by
  unfold writeAt
  rw [if_pos (by simp only [List.length_replicate]; omega)]
  rw [List.take_replicate, List.drop_replicate, Nat.min_eq_left (by omega)]
  congr 2
  omega

/-- `slice` confined to the left part of a concatenation. -/
theorem jsSlice_append_left (l1 l2 : List Nat) (a b : Nat) (hb : b ≤ l1.length)
    (hab : a ≤ b) :
    jsSlice (l1 ++ l2) a b = jsSlice l1 a b := by
  unfold jsSlice
  rw [List.drop_append_of_le_length (by omega),
    List.take_append_of_le_length (by simp only [List.length_drop]; omega)]

/-- `slice` starting at or beyond the left part of a concatenation. -/
theorem jsSlice_append_shift (l1 l2 : List Nat) (a b : Nat) (ha : l1.length ≤ a) :
    jsSlice (l1 ++ l2) a b = jsSlice l2 (a - l1.length) (b - l1.length) := by
  unfold jsSlice
  obtain ⟨m, rfl⟩ : ∃ m, a = l1.length + m := ⟨a - l1.length, by omega⟩
  rw [List.drop_append, Nat.add_sub_cancel_left]
  congr 1
  omega

/-- The noise loop preserves the buffer length. -/
theorem noiseGo_length (st hs hz : Nat) (nf : Nat → Nat) (l : List Nat) :
    ∀ i, (noiseGo st hs hz nf i l).length = l.length := by
  induction l with
  | nil => intro i; rfl
  | cons b rest ih => intro i; simp [noiseGo, ih (i + 1)]

/-- The noise loop distributes over concatenation. -/
theorem noiseGo_append (st hs hz : Nat) (nf : Nat → Nat) (l1 l2 : List Nat) :
    ∀ i, noiseGo st hs hz nf i (l1 ++ l2) =
      noiseGo st hs hz nf i l1 ++ noiseGo st hs hz nf (i + l1.length) l2 := by
  induction l1 with
  | nil => intro i; simp [noiseGo]
  | cons b rest ih =>
    intro i
    simp only [List.cons_append, noiseGo, List.length_cons, List.append_eq]
    rw [ih (i + 1), show i + (rest.length + 1) = i + 1 + rest.length from by omega]

/-- Indices before the noise start are untouched. -/
theorem noiseGo_id_before (st hs hz : Nat) (nf : Nat → Nat) (l : List Nat) :
    ∀ i, i + l.length ≤ st → noiseGo st hs hz nf i l = l := by
  induction l with
  | nil => intro i _; rfl
  | cons b rest ih =>
    intro i h
    simp only [List.length_cons] at h
    unfold noiseGo
    rw [if_neg (by omega), ih (i + 1) (by omega)]

/-- Indices in the protected window `[hs, hs + hz + 4)` are untouched. -/
theorem noiseGo_id_protected (st hs hz : Nat) (nf : Nat → Nat) (l : List Nat) :
    ∀ i, hs ≤ i → i + l.length ≤ hs + hz + 4 → noiseGo st hs hz nf i l = l := by
  induction l with
  | nil => intro i _ _; rfl
  | cons b rest ih =>
    intro i h1 h2
    simp only [List.length_cons] at h2
    unfold noiseGo
    rw [if_neg (by omega), ih (i + 1) (by omega) (by omega)]

/-- The encrypting CBC loop is length-preserving as long as the block
encryption produces 16-byte blocks. -/
theorem cbcGo_length_enc (enc dec : List Nat → List Nat)
    (h : ∀ b, (enc b).length = 16) :
    ∀ (fuel : Nat) (rest prev : List Nat), rest.length ≤ fuel →
      (cbcGo enc dec true fuel prev rest).length = rest.length := by
  intro fuel
  induction fuel with
  | zero =>
    intro rest prev hr
    have : rest = [] := List.eq_nil_of_length_eq_zero (by omega)
    subst this
    rfl
  | succ fuel ih =>
    intro rest prev hr
    cases rest with
    | nil => rfl
    | cons x xs =>
      simp only [cbcGo]
      rw [if_pos trivial]
      have hdrop : (List.drop 16 (x :: xs)).length ≤ fuel := by
        simp only [List.length_drop, List.length_cons] at *
        omega
      rw [List.length_append, ih (List.drop 16 (x :: xs)) _ hdrop]
      simp only [List.length_take, h, List.length_drop, List.length_cons]
      omega

/-- Every Twofish block encryption yields 16 bytes. -/
theorem twofishBlockEncrypt_length (b sk : List Nat) :
    (twofishBlockEncrypt b sk).length = 16 := rfl

/-- Twofish-CBC encryption is length-preserving. -/
theorem twofishCipher_length (data key iv : List Nat) :
    (twofishCipher data key iv true).length = data.length := by
  unfold twofishCipher cbcLoop
  exact cbcGo_length_enc _ _ (fun b => twofishBlockEncrypt_length b _)
    data.length data iv (Nat.le_refl _)

/-- The tag-stripped AES-GCM ciphertext has the payload's length. -/
theorem encryptAES_fst_length (g : GCMModel) (k : GCMKey) (iv d : List Nat) :
    ((encryptAES g k iv d).1).length = d.length := by
  simp only [encryptAES, subtleEncryptGCM, jsSlice, List.drop_zero, List.length_take,
    List.length_append, g.ct_length, g.tag_length, Nat.sub_zero]
  omega

/-- The total length of a deniable container:
`max (|publicCt| + |hiddenCt| + 1024, 1 MB)` with both ciphertexts as long
as their payloads. -/
theorem createDeniableContainer_length (sha256 : List Nat → List Nat)
    (pbkdf2 : String → List Nat → Nat → List Nat) (g : GCMModel)
    (pS hS pIV hIV : List Nat) (nf : Nat → Nat) (pub hid : List Nat)
    (ppw hpw : String) :
    (createDeniableContainer sha256 pbkdf2 g pS hS pIV hIV nf pub hid ppw hpw).length =
      max (pub.length + hid.length + 1024) 1048576 := by
  unfold createDeniableContainer fillWithCryptoNoise
  simp only [noiseGo_length, writeAt_length, List.length_replicate,
    encryptAES_fst_length, twofishCipher_length]

/-- Assembly of a deniable container: with a 256-byte header, the public
ciphertext at 256, the hidden ciphertext at `pos` and noise from
`256 + |ep|` onward (sparing the window `[pos, pos + |eh| + 4)`), the
container splits into
`header ‖ publicCt ‖ noise ‖ hiddenCt ‖ 0⁴ ‖ noise` — in particular the four
bytes after the hidden ciphertext are *zero*, not a stored length, and the
four bytes *at* `pos` are the first four ciphertext bytes. -/
theorem deniable_assembly (nf : Nat → Nat) (hdr ep eh : List Nat) (N pos : Nat)
    (hh : hdr.length = 256) (h1 : 256 + ep.length ≤ pos) (h2 : pos + eh.length + 4 ≤ N) :
    fillWithCryptoNoise (writeAt (writeAt (writeAt (List.replicate N 0) 0 hdr) 256 ep)
        pos eh) (256 + ep.length) pos eh.length nf =
      hdr ++ ep ++
        noiseGo (256 + ep.length) pos eh.length nf (256 + ep.length)
          (List.replicate (pos - 256 - ep.length) 0) ++ eh ++ List.replicate 4 0 ++
        noiseGo (256 + ep.length) pos eh.length nf (pos + eh.length + 4)
          (List.replicate (N - pos - eh.length - 4) 0) := by
  rw [writeAt_zero _ hdr (by simp only [List.length_replicate]; omega), hh,
    List.drop_replicate]
  rw [writeAt_append_right hdr _ ep 256 (by omega) (by simp only [List.length_replicate]; omega)]
  rw [hh, Nat.sub_self, writeAt_replicate _ 0 ep (by omega), List.replicate_zero,
    List.nil_append]
  rw [writeAt_append_right hdr _ eh pos (by omega)
    (by simp only [List.length_append, List.length_replicate]; omega), hh]
  rw [writeAt_append_right ep _ eh (pos - 256) (by omega)
    (by simp only [List.length_replicate]; omega)]
  rw [writeAt_replicate _ _ eh (by omega)]
  rw [show N - 256 - 0 - ep.length - (pos - 256 - ep.length) - eh.length =
    4 + (N - pos - eh.length - 4) from by omega, List.replicate_add]
  unfold fillWithCryptoNoise
  rw [noiseGo_append _ _ _ nf hdr _ 0]
  rw [noiseGo_id_before _ _ _ nf hdr 0 (by omega)]
  rw [hh, Nat.zero_add]
  rw [noiseGo_append _ _ _ nf ep _ 256]
  rw [noiseGo_id_before _ _ _ nf ep 256 (by omega)]
  simp only [List.append_assoc]
  rw [noiseGo_append _ _ _ nf (List.replicate (pos - 256 - ep.length) 0) _ (256 + ep.length)]
  rw [List.length_replicate]
  rw [show 256 + ep.length + (pos - 256 - ep.length) = pos from by omega]
  rw [noiseGo_append _ _ _ nf eh _ pos]
  rw [noiseGo_id_protected _ _ _ nf eh pos (by omega) (by omega)]
  rw [noiseGo_append _ _ _ nf (List.replicate 4 0) _ (pos + eh.length)]
  rw [noiseGo_id_protected _ _ _ nf (List.replicate 4 0) (pos + eh.length) (by omega)
    (by simp only [List.length_replicate]; omega)]
  rw [show (List.replicate 4 (0 : Nat)).length = 4 from rfl]

/-! ## Claim C6 -/

/-- **C6** (corrected): the container length the code actually produces is
`max (publicCtLen + hiddenCtLen + 1024, 1 MB)` — the source reads
`Math.max(encryptedPublic.byteLength + encryptedHidden.byteLength + 1024,
1024 * 1024)` — and both ciphertexts are exactly as long as their payloads,
so the total is `max (publicSize + hiddenSize + 1024, 2^20)`; it is *not* in
general at least `2 × publicSize`, nor `hiddenSize + publicSize + 1 MB`. -/
theorem C6_container_size (sha256 : List Nat → List Nat)
    (pbkdf2 : String → List Nat → Nat → List Nat) (g : GCMModel)
    (pS hS pIV hIV : List Nat) (nf : Nat → Nat) (pub hid : List Nat)
    (ppw hpw : String) :
    (createDeniableContainer sha256 pbkdf2 g pS hS pIV hIV nf pub hid ppw hpw).length =
      max (pub.length + hid.length + 1024) 1048576 :=
  createDeniableContainer_length sha256 pbkdf2 g pS hS pIV hIV nf pub hid ppw hpw

/-- **C6 counterexample**: for a 1-byte public payload and an empty hidden
payload the container is exactly 1 MB long, strictly smaller than the
claimed lower bound `max (2·publicSize, hiddenSize + publicSize + 1 MB) =
1 MB + 1`. -/
theorem C6_container_size_counterexample :
    (createDeniableContainer shaZero pb0 gcmId (List.replicate 32 1) (List.replicate 32 2)
        (List.replicate 12 3) (List.replicate 16 4) noise7 [42] [] "p" "h").length <
      max (2 * ([42] : List Nat).length)
        (([] : List Nat).length + ([42] : List Nat).length + 1048576) := by
  rw [createDeniableContainer_length]
  decide

/-! ## Claim C2 -/

set_option maxRecDepth 8000 in
/-- Certification of the hidden-payload Twofish ciphertext literal. -/
theorem ct2C2_eval :
    twofishCipher (List.replicate 16 9) ((pb0 "hpw" (List.replicate 32 2) 600000).take 32)
      (List.replicate 16 4) true = ct2C2 := by
  decide

set_option maxRecDepth 8000 in
/-- The header buffer is 256 bytes. -/
theorem hdrC2_length : hdrC2.length = 256 := by decide

set_option maxRecDepth 8000 in
/-- Full layout of the concrete container: header, public ciphertext,
noise, the 16 hidden ciphertext bytes, four *zero* bytes (the window the
noise loop protects for the length prefix that creation never writes), and
noise. -/
theorem containerC2_layout :
    containerC2 = hdrC2 ++ [10, 20] ++
      noiseGo 258 314572 16 noise7 258 (List.replicate 314314 0) ++ ct2C2 ++
      List.replicate 4 0 ++ noiseGo 258 314572 16 noise7 314592 (List.replicate 733984 0) := by
  simp only [containerC2, createDeniableContainer]
  rw [show (encryptAES gcmId ⟨"ppw", List.replicate 32 1, 600000⟩ (List.replicate 12 3)
    [10, 20]).1 = [10, 20] from by decide]
  rw [ct2C2_eval]
  rw [show max (([10, 20] : List Nat).length + ct2C2.length + 1024) 1048576 = 1048576 from by
    decide]
  rw [show calculateHiddenPosition shaZero "hpw" (List.replicate 32 2) 1048576 = 314572 from by
    decide]
  rw [show writeAt (writeAt (writeAt (writeAt (List.replicate 256 0) 0 (List.replicate 32 1))
    32 (List.replicate 12 3)) 48 (List.replicate 32 2)) 80 (List.replicate 16 4) = hdrC2 from
    rfl]
  rw [deniable_assembly noise7 hdrC2 [10, 20] ct2C2 1048576 314572 hdrC2_length (by decide)
    (by decide)]
  rw [show ct2C2.length = 16 from rfl]
  norm_num

/-- The noise segment before the hidden ciphertext is 314314 bytes. -/
theorem nz1C2_length :
    (noiseGo 258 314572 16 noise7 258 (List.replicate 314314 0)).length = 314314 := by
  rw [noiseGo_length, List.length_replicate]

set_option maxRecDepth 8000 in
/-- **C2** (code bug): extracting the hidden payload from a freshly created
deniable container with the correct hidden password fails.
`createDeniableContainer` writes the raw hidden ciphertext at
`hiddenPosition` and *no 4-byte length prefix* (though `fillWithCryptoNoise`
carefully protects `hiddenSize + 4` bytes for one, and `extractHiddenData`'s
own comment says the size is stored there); extraction therefore reads the
first four ciphertext bytes as the length — here `2624242`, more than half
the container — and throws the wrong-password error for the *correct*
password. -/
theorem C2_extract_hidden_fails :
    extractHiddenData shaZero pb0 containerC2 "hpw" =
      .error "Mot de passe incorrect ou aucune donnee cachee trouvee" := by
  have hsalt : jsSlice containerC2 48 80 = List.replicate 32 2 := by
    rw [containerC2_layout, List.append_assoc, List.append_assoc, List.append_assoc,
      List.append_assoc]
    rw [jsSlice_append_left hdrC2 _ 48 80 (by rw [hdrC2_length]; omega) (by omega)]
    decide
  have hlen : containerC2.length = 1048576 := by
    unfold containerC2
    rw [createDeniableContainer_length]
    decide
  have hpos4 : jsSlice containerC2 314572 (314572 + 4) = [0, 40, 10, 242] := by
    rw [containerC2_layout, List.append_assoc, List.append_assoc, List.append_assoc,
      List.append_assoc]
    rw [jsSlice_append_shift hdrC2 _ 314572 (314572 + 4) (by rw [hdrC2_length]; omega)]
    rw [hdrC2_length, show (314572 : Nat) - 256 = 314316 from by norm_num,
      show (314572 + 4 : Nat) - 256 = 314320 from by norm_num]
    rw [jsSlice_append_shift [10, 20] _ 314316 314320 (by simp)]
    rw [show ([10, 20] : List Nat).length = 2 from rfl,
      show (314316 : Nat) - 2 = 314314 from by norm_num,
      show (314320 : Nat) - 2 = 314318 from by norm_num]
    rw [jsSlice_append_shift _ _ 314314 314318 (by rw [nz1C2_length])]
    rw [nz1C2_length, show (314314 : Nat) - 314314 = 0 from by norm_num,
      show (314318 : Nat) - 314314 = 4 from by norm_num]
    rw [jsSlice_append_left ct2C2 _ 0 4 (by decide) (by omega)]
    decide
  simp only [extractHiddenData]
  rw [hsalt, hlen]
  rw [show calculateHiddenPosition shaZero "hpw" (List.replicate 32 2) 1048576 = 314572 from by
    decide]
  rw [hpos4]
  rw [if_pos (by decide)]

end Chiffremento
